import Mathlib

/-!
Verification development for the Session-Logger-API backend.

The definitions below are a shallow embedding of the data-processing core of
the repository (`src/data_proc.py`): the `UnitConverter` conversions, the
time-window resolution `parse_time_and_date`, the awk row filter constructed
by `build_command`, the precise meteorological reduction
`get_mean_meteor_vals_2` with its unit-conversion step
`convert_means_dict_units_to_std`, and the tide pipeline `get_tides_noaa` /
`get_tide_sesh_data`.

Modelling conventions:
- Python floats are modelled as rationals (`ℚ`); `round(x, n)` is Python's
  banker's rounding, modelled exactly by `round_half_even`.
- Python `%` on integers (sign of the divisor) is `Int.emod`; Python `//`
  (floor division) is `Int.fdiv`; Python `int()` truncates toward zero.
- The float NaN produced by pandas for an all-null mean is the explicit
  value `PyVal.nan`; Python truthiness (`if means[k]:`) is `truthy`
  (NaN is truthy, `0.0` is falsy).
- Fallible Python code is modelled in `Except PyErr`; remote fetches are
  passed in as explicit arguments together with a flag recording whether the
  fetched data was consumed.
-/

/-! ## Rounding (Python `round`, banker's rounding) -/

/-- Python's `round` to an integer: round half to even.  Written with the
computable `Rat.floor` so that concrete instances evaluate by `decide`. -/
def round_half_even (q : ℚ) : ℤ :=
  if q - q.floor < 1/2 then q.floor
  else if 1/2 < q - q.floor then q.floor + 1
  else if q.floor % 2 = 0 then q.floor else q.floor + 1

/-- Python `round(q, 1)`. -/
def pyRound1 (q : ℚ) : ℚ := (round_half_even (10 * q) : ℚ) / 10

/-- Python `round(q, 2)`. -/
def pyRound2 (q : ℚ) : ℚ := (round_half_even (100 * q) : ℚ) / 100

/-! ## UnitConverter (`src/src/data_proc.py`, class `UnitConverter`) -/

/-- The eight compass points, in the order of the `cardinals` list of
`UnitConverter.find_cardinal_direction`. -/
def cardinals : List String := ["N", "NE", "E", "SE", "S", "SW", "W", "NW"]

/-- `UnitConverter.find_cardinal_direction`: the source computes
`cardinals[((value % 360) // 45) % 8]`.  Python `%` with a positive modulus
is `Int.emod`, Python `//` is `Int.fdiv`; the index is always in `[0, 8)` so
the list access is total. -/
def find_cardinal_direction (value : ℤ) : String :=
  cardinals.getD ((((value % 360).fdiv 45) % 8).toNat) ""

/-- `UnitConverter.meters_to_feet`: pint converts with the exact factor
1 ft = 0.3048 m, then the source rounds to one decimal. -/
def meters_to_feet (value : ℚ) : ℚ := pyRound1 (value * (10000 / 3048))

/-- `UnitConverter.feet_to_meters`: exact factor 0.3048 m per ft, rounded to
one decimal. -/
def feet_to_meters (value : ℚ) : ℚ := pyRound1 (value * (3048 / 10000))

/-- `UnitConverter.meters_per_sec_to_mph`: pint's exact factor
(1 mile = 1609.344 m, 1 h = 3600 s), rounded to one decimal. -/
def meters_per_sec_to_mph (value : ℚ) : ℚ :=
  pyRound1 (value * (3600000 / 1609344))

/-- `UnitConverter.celsius_to_fahrenheit`, rounded to one decimal. -/
def celsius_to_fahrenheit (value : ℚ) : ℚ := pyRound1 (value * (9/5) + 32)

/-- `UnitConverter.fahrenheit_to_celsius`, rounded to one decimal. -/
def fahrenheit_to_celsius (value : ℚ) : ℚ := pyRound1 ((value - 32) * (5/9))

/-! ## Calendar and Pacific-time conversion (`BuoyData.parse_time_and_date`)

The source builds pandas timestamps from the session date and the two clock
times, localizes them in the `US/Pacific` zone and converts to UTC.  The
wall-clock datetimes are modelled by `DT`; the `US/Pacific` UTC offset
(8 hours in standard time, 7 during daylight-saving time, which runs from
2:00 on the second Sunday of March to 2:00 on the first Sunday of November)
is computed from the Gregorian calendar via Zeller's congruence. -/

/-- A wall-clock datetime (year, month, day, hour, minute). -/
structure DT where
  year : Nat
  month : Nat
  day : Nat
  hour : Nat
  minute : Nat
deriving DecidableEq, Repr

/-- Gregorian leap-year rule. -/
def isLeapYear (y : Nat) : Bool :=
  decide (y % 4 = 0 ∧ (y % 100 ≠ 0 ∨ y % 400 = 0))

/-- Number of days in a month of the Gregorian calendar. -/
def daysInMonth (y mo : Nat) : Nat :=
  if mo = 2 then (if isLeapYear y then 29 else 28)
  else if mo = 4 ∨ mo = 6 ∨ mo = 9 ∨ mo = 11 then 30
  else 31

/-- A datetime whose date components form a real calendar date and whose
clock components are in range. -/
def ValidDT (t : DT) : Prop :=
  1 ≤ t.month ∧ t.month ≤ 12 ∧ 1 ≤ t.day ∧ t.day ≤ daysInMonth t.year t.month ∧
    t.hour < 24 ∧ t.minute < 60

instance (t : DT) : Decidable (ValidDT t) := by
  unfold ValidDT; infer_instance

/-- The calendar date following the date of `t` (clock fields unchanged). -/
def nextDate (t : DT) : DT :=
  if t.day < daysInMonth t.year t.month then { t with day := t.day + 1 }
  else if t.month < 12 then { t with month := t.month + 1, day := 1 }
  else { t with year := t.year + 1, month := 1, day := 1 }

/-- Add `k < 24` hours to a datetime, rolling over to the next calendar date
when the hour passes midnight. -/
def addHoursDT (t : DT) (k : Nat) : DT :=
  if t.hour + k < 24 then { t with hour := t.hour + k }
  else { nextDate t with hour := t.hour + k - 24 }

/-- Day of week of a Gregorian date by Zeller's congruence
(0 = Saturday, 1 = Sunday, ..., 6 = Friday). -/
def zellerDow (y mo d : Nat) : Nat :=
  let y2 := if mo ≤ 2 then y - 1 else y
  let m2 := if mo ≤ 2 then mo + 12 else mo
  (d + 13 * (m2 + 1) / 5 + y2 % 100 + y2 % 100 / 4 + y2 / 100 / 4 + 5 * (y2 / 100)) % 7

/-- Day of month of the first Sunday of the month whose first day has Zeller
day-of-week `w`. -/
def firstSundayFrom (w : Nat) : Nat := 1 + (8 - w) % 7

/-- Day of March on which US daylight-saving time begins (second Sunday). -/
def secondSundayOfMarch (y : Nat) : Nat := firstSundayFrom (zellerDow y 3 1) + 7

/-- Day of November on which US daylight-saving time ends (first Sunday). -/
def firstSundayOfNovember (y : Nat) : Nat := firstSundayFrom (zellerDow y 11 1)

/-- Whether a Pacific wall-clock datetime falls in daylight-saving time.
On the two switch days the boundary is 2:00 wall clock; the skipped and the
repeated hour are resolved forward, which does not affect any claim. -/
def isPacificDST (t : DT) : Bool :=
  if t.month < 3 ∨ 11 < t.month then false
  else if 3 < t.month ∧ t.month < 11 then true
  else if t.month = 3 then
    decide (secondSundayOfMarch t.year < t.day ∨
      (t.day = secondSundayOfMarch t.year ∧ 2 ≤ t.hour))
  else
    decide (t.day < firstSundayOfNovember t.year ∨
      (t.day = firstSundayOfNovember t.year ∧ t.hour < 2))

/-- Hours that must be added to a Pacific wall-clock datetime to reach UTC. -/
def pacificOffsetHours (t : DT) : Nat := if isPacificDST t then 7 else 8

/-- `tz_localize('US/Pacific')` followed by `tz_convert('UTC')`: the UTC
datetime of a Pacific wall-clock datetime. -/
def pacificToUTC (t : DT) : DT := addHoursDT t (pacificOffsetHours t)

/-- A clock time (`HH:MM` string in the source). -/
structure SessionTime where
  hh : Nat
  mi : Nat
deriving DecidableEq, Repr

/-- The wall-clock datetime `Timestamp(f'{sesh_date} {time}')`. -/
def mkDT (y mo d : Nat) (t : SessionTime) : DT := ⟨y, mo, d, t.hh, t.mi⟩

/-- `BuoyData.parse_time_and_date`: localize the two session bounds in
`US/Pacific`, convert to UTC and return
`(hr_in, min_in, hr_out, min_out, month, day)`.  The source formats the six
numbers as two-digit strings that the awk filter of `build_command` compares
numerically; they are kept as numbers here.  The month/day branch mirrors
`if utc_in.day != pst_in.day` of the source. -/
def parse_time_and_date (y mo d : Nat) (time_in time_out : SessionTime) :
    Nat × Nat × Nat × Nat × Nat × Nat :=
  let pstIn := mkDT y mo d time_in
  let utcIn := pacificToUTC pstIn
  let utcOut := pacificToUTC (mkDT y mo d time_out)
  (utcIn.hour, utcIn.minute, utcOut.hour, utcOut.minute,
    if utcIn.day ≠ pstIn.day then (utcIn.month, utcIn.day)
    else (pstIn.month, pstIn.day))

/-- The window resolution as the specification words it: each bound is
localized to Pacific time and converted to UTC, the UTC hour and minute of
each bound are returned, and the report-date filter uses the UTC day/month
exactly when the UTC *calendar day* (the full date) of the start timestamp
differs from its local calendar day, the local day/month otherwise. -/
def specResolveWindow (y mo d : Nat) (time_in time_out : SessionTime) :
    Nat × Nat × Nat × Nat × Nat × Nat :=
  let pstIn := mkDT y mo d time_in
  let utcIn := pacificToUTC pstIn
  let utcOut := pacificToUTC (mkDT y mo d time_out)
  (utcIn.hour, utcIn.minute, utcOut.hour, utcOut.minute,
    if (utcIn.year, utcIn.month, utcIn.day) ≠ (pstIn.year, pstIn.month, pstIn.day) then
      (utcIn.month, utcIn.day)
    else (pstIn.month, pstIn.day))

/-! ## The awk row filter (`BuoyData.build_command`)

`build_command` pipes a `wget` download into an awk program whose condition
is built from the six values returned by `parse_time_and_date`:

    ($2 == month && $3 == day) &&
    (($4 == hr_in && $5 >= min_in) || ($4 > hr_in && $4 < hr_out) ||
     ($4 == hr_out && $5 <= min_out))

The shell/wget plumbing is external I/O; the content of the command is its
filter condition, embedded as a small condition AST over the numeric report
fields `$1`..`$5` (year, month, day, hour, minute). -/

/-- One data row of the NDBC report, restricted to the five date-time
fields the awk filter reads (`$1`..`$5`). -/
structure ReportRow where
  yy : Nat
  mon : Nat
  dd : Nat
  hh : Nat
  mi : Nat
deriving DecidableEq, Repr

/-- Comparison of one awk field against one numeric literal. -/
inductive AwkCmp where
  | ceq (field lit : Nat)
  | cge (field lit : Nat)
  | cle (field lit : Nat)
  | cgt (field lit : Nat)
  | clt (field lit : Nat)
deriving DecidableEq, Repr

/-- Boolean structure of the awk filter condition. -/
inductive AwkCond where
  | cmp (c : AwkCmp)
  | cand (a b : AwkCond)
  | cor (a b : AwkCond)
deriving DecidableEq, Repr

/-- Numeric value of awk field `$i` on a report row. -/
def fieldVal (r : ReportRow) : Nat → Nat
  | 1 => r.yy
  | 2 => r.mon
  | 3 => r.dd
  | 4 => r.hh
  | 5 => r.mi
  | _ => 0

/-- Evaluate one awk comparison on a row. -/
def evalCmp (r : ReportRow) : AwkCmp → Bool
  | .ceq f n => decide (fieldVal r f = n)
  | .cge f n => decide (n ≤ fieldVal r f)
  | .cle f n => decide (fieldVal r f ≤ n)
  | .cgt f n => decide (n < fieldVal r f)
  | .clt f n => decide (fieldVal r f < n)

/-- Evaluate an awk condition on a row. -/
def evalCond (r : ReportRow) : AwkCond → Bool
  | .cmp c => evalCmp r c
  | .cand a b => evalCond r a && evalCond r b
  | .cor a b => evalCond r a || evalCond r b

/-- The `time` sub-condition of `build_command`:
`($4 == hr_in && $5 >= min_in) || ($4 > hr_in && $4 < hr_out) || ($4 == hr_out && $5 <= min_out)`
(awk `||` associates to the left). -/
def timeCond (hrIn minIn hrOut minOut : Nat) : AwkCond :=
  .cor
    (.cor (.cand (.cmp (.ceq 4 hrIn)) (.cmp (.cge 5 minIn)))
      (.cand (.cmp (.cgt 4 hrIn)) (.cmp (.clt 4 hrOut))))
    (.cand (.cmp (.ceq 4 hrOut)) (.cmp (.cle 5 minOut)))

/-- The `utc_date` sub-condition of `build_command`:
`($2 == month && $3 == day)`. -/
def dateCond (month day : Nat) : AwkCond :=
  .cand (.cmp (.ceq 2 month)) (.cmp (.ceq 3 day))

/-- `BuoyData.build_command`, reduced to the awk filter condition it embeds
in the constructed shell command: `{utc_date} && ({time})` over the values
returned by `parse_time_and_date`. -/
def build_command (y mo d : Nat) (time_in time_out : SessionTime) : AwkCond :=
  match parse_time_and_date y mo d time_in time_out with
  | (hrIn, minIn, hrOut, minOut, month, day) =>
    .cand (dateCond month day) (timeCond hrIn minIn hrOut minOut)

/-- The row predicate as claim C2 words it: the row's month and day match
the resolved window, and the row's hour/minute fall in the window with the
boundary-hour rules (at the start hour only minutes ≥ `min_in`, at the end
hour only minutes ≤ `min_out`, interior hours unconditionally). -/
def specKeepsRow (hrIn minIn hrOut minOut month day : Nat) (r : ReportRow) : Prop :=
  (r.mon = month ∧ r.dd = day) ∧
    ((r.hh = hrIn ∧ minIn ≤ r.mi) ∨ (hrIn < r.hh ∧ r.hh < hrOut) ∨
      (r.hh = hrOut ∧ r.mi ≤ minOut))

/-! ## Python values and errors -/

/-- Kinds of Python exception the embedded code can raise.
`invalidTimeframe` is the repository's `InvalidTimeframeException`;
`keyError`, `valueError` and `attributeError` are the Python builtins
raised by dict access, `int()` on NaN, and attribute access on `None`.
`dataUnavailable` is modelled from the spec: the spec's `DataUnavailable`
error kind, which has no counterpart anywhere in the source; it exists here
only so that claims about it can be stated. -/
inductive PyErr where
  | invalidTimeframe
  | keyError
  | valueError
  | attributeError
  | dataUnavailable
deriving DecidableEq, Repr

/-- A Python value stored in the statistics dict: a float (`num`), the
float NaN that pandas produces for an all-null mean, or a string (the
cardinal directions). -/
inductive PyVal where
  | num (q : ℚ)
  | nan
  | str (s : String)
deriving DecidableEq, Repr

/-- Python truthiness of a `PyVal`: `0.0` and `""` are falsy; NaN is
truthy. -/
def truthy : PyVal → Bool
  | .num q => decide (q ≠ 0)
  | .nan => true
  | .str s => decide (s ≠ "")

/-- Python `int()` on a statistics value: floats truncate toward zero,
`int(nan)` raises `ValueError` (as does `int` of a non-numeric string). -/
def pyInt : PyVal → Except PyErr ℤ
  | .num q => .ok (q.num.tdiv q.den)
  | .nan => .error .valueError
  | .str _ => .error .valueError

/-! ## The means dict and its unit conversion
(`BuoyData.get_mean_meteor_vals_2` / `convert_means_dict_units_to_std`) -/

/-- Keys of the statistics dict: the eight aggregated columns of
`cols = ['WDIR','WSPD','GST','WVHT','DPD','MWD','ATMP','WTMP']` plus the
two derived cardinal-direction keys. -/
inductive ColKey where
  | WDIR | WSPD | GST | WVHT | DPD | MWD | ATMP | WTMP | WDIR_CARD | MWD_CARD
deriving DecidableEq, Repr

/-- The Python dict mapping column keys to values, as an association list
(`dict.to_dict()` of the mean series followed by in-place mutation). -/
def PyDict := List (ColKey × PyVal)
deriving DecidableEq

/-- Dict read `means[k]`: `KeyError` when the key is absent. -/
def dget (m : PyDict) (k : ColKey) : Except PyErr PyVal :=
  match List.lookup k m with
  | some v => .ok v
  | none => .error .keyError

/-- Dict write `means[k] = v`: overwrite an existing key, append a new
one. -/
def setk : PyDict → ColKey → PyVal → PyDict
  | [], k, v => [(k, v)]
  | (k0, v0) :: rest, k, v =>
    if k0 = k then (k0, v) :: rest else (k0, v0) :: setk rest k v

/-- One raw observation cell of the fetched report: the missing-value
sentinel `"MM"`, a numeric string, or some other non-numeric string. -/
inductive RawCell where
  | mm
  | num (q : ℚ)
  | junk
deriving DecidableEq, Repr

/-- Composition of `drop_mm` (replace the `"MM"` sentinel by null) and
`to_numeric(errors='coerce')` (numeric strings parse, everything else
becomes NaN/null, which the mean skips). -/
def rawToNum : RawCell → Option ℚ
  | .num q => some q
  | _ => none

/-- One fetched report row, restricted to the eight aggregated columns. -/
structure MetRow where
  WDIR : RawCell
  WSPD : RawCell
  GST : RawCell
  WVHT : RawCell
  DPD : RawCell
  MWD : RawCell
  ATMP : RawCell
  WTMP : RawCell
deriving DecidableEq, Repr

/-- Column mean as pandas computes it: the mean over non-null values
rounded to two decimals, and NaN when the column has no non-null value. -/
def colMean (cells : List RawCell) : PyVal :=
  let valid := cells.filterMap rawToNum
  if valid.isEmpty then .nan
  else .num (pyRound2 (valid.sum / (valid.length : ℚ)))

/-- The means dict in the key order of `cols`. -/
def mkMeansDict (w ws g wv dp mw atm wtm : PyVal) : PyDict :=
  [(.WDIR, w), (.WSPD, ws), (.GST, g), (.WVHT, wv), (.DPD, dp), (.MWD, mw),
    (.ATMP, atm), (.WTMP, wtm)]

/-- `df[cols].mean().round(2).to_dict()`: every column key is present, an
all-null column contributing NaN. -/
def meansDict (tbl : List MetRow) : PyDict :=
  mkMeansDict
    (colMean (tbl.map MetRow.WDIR)) (colMean (tbl.map MetRow.WSPD))
    (colMean (tbl.map MetRow.GST)) (colMean (tbl.map MetRow.WVHT))
    (colMean (tbl.map MetRow.DPD)) (colMean (tbl.map MetRow.MWD))
    (colMean (tbl.map MetRow.ATMP)) (colMean (tbl.map MetRow.WTMP))

/-- Apply a float-to-float unit conversion to a dict value; pint maps NaN
to NaN. -/
def convNum (f : ℚ → ℚ) : PyVal → PyVal
  | .num q => .num (f q)
  | v => v

/-- One `if means[key]: means[key] = f(means[key])` statement of
`convert_means_dict_units_to_std`. -/
def convStep (key : ColKey) (f : ℚ → ℚ) (m : PyDict) : Except PyErr PyDict :=
  match dget m key with
  | .error e => .error e
  | .ok v => if truthy v then .ok (setk m key (convNum f v)) else .ok m

/-- One `if means[src]: means[dst] = find_cardinal_direction(int(means[src]))`
statement of `convert_means_dict_units_to_std`. -/
def cardStep (src dst : ColKey) (m : PyDict) : Except PyErr PyDict :=
  match dget m src with
  | .error e => .error e
  | .ok v =>
    if truthy v then
      match pyInt v with
      | .error e => .error e
      | .ok i => .ok (setk m dst (.str (find_cardinal_direction i)))
    else .ok m

/-- Statement sequencing in the conversion: a raised exception aborts, a
normal result feeds the next statement. -/
def andThenConv (step : PyDict → Except PyErr PyDict) :
    Except PyErr PyDict → Except PyErr PyDict
  | .error e => .error e
  | .ok m => step m

/-- `BuoyData.convert_means_dict_units_to_std` as the sequence of its seven
statements: the first statement to raise aborts the call (the source
mutates the dict in place; here each statement passes the dict along). -/
def convert_means_dict_units_to_std (m : PyDict) : Except PyErr PyDict :=
  andThenConv (convStep .WTMP celsius_to_fahrenheit)
    (andThenConv (convStep .ATMP celsius_to_fahrenheit)
      (andThenConv (cardStep .MWD .MWD_CARD)
        (andThenConv (convStep .WVHT meters_to_feet)
          (andThenConv (convStep .GST meters_per_sec_to_mph)
            (andThenConv (convStep .WSPD meters_per_sec_to_mph)
              (cardStep .WDIR .WDIR_CARD m))))))

/-- `BuoyData.get_mean_meteor_vals_2`.  The remote fetch performed by
`build_da_frame_2` is modelled by passing the fetched, already
window-filtered table as an argument; the boolean records whether that
fetch was consumed (the source raises before fetching when the start hour
exceeds the end hour: `if int(time_in[:2]) > int(time_out[:2])`). -/
def get_mean_meteor_vals_2 (time_in time_out : SessionTime)
    (fetched : List MetRow) : Except PyErr PyDict × Bool :=
  if time_out.hh < time_in.hh then (.error .invalidTimeframe, false)
  else (convert_means_dict_units_to_std (meansDict fetched), true)

/-- Claim C5's notion of `time_in` being earlier than `time_out` within the
same local day. -/
def timeEarlier (a b : SessionTime) : Prop :=
  a.hh < b.hh ∨ (a.hh = b.hh ∧ a.mi < b.mi)

instance (a b : SessionTime) : Decidable (timeEarlier a b) := by
  unfold timeEarlier; infer_instance

/-- Observer: is the result the `InvalidTimeframeException`? -/
def isInvalidTimeframeErr (r : Except PyErr PyDict) : Bool :=
  match r with
  | .error .invalidTimeframe => true
  | _ => false

/-- Observer: did the call return normally? -/
def isOkE (r : Except PyErr PyDict) : Bool :=
  match r with
  | .ok _ => true
  | .error _ => false

/-- Observer: the value stored under a key of a successful result (`none`
when the call failed or the key is absent). -/
def lookupInResult (r : Except PyErr PyDict) (k : ColKey) : Option PyVal :=
  match r with
  | .ok d => List.lookup k d
  | .error _ => none

/-- Observer: the error of a failed meteorological call. -/
def meteorErrKind (r : Except PyErr PyDict) : Option PyErr :=
  match r with
  | .error e => some e
  | .ok _ => none

/-- A one-row table whose wave-height cell is the `"MM"` sentinel and whose
other cells are numeric. -/
def tblWvhtMM : List MetRow :=
  [⟨.num 100, .num 5, .num 7, .mm, .num 10, .num 200, .num 15, .num 12⟩]

/-- A one-row table whose wind-direction cell is the `"MM"` sentinel and
whose other cells are numeric. -/
def tblWdirMM : List MetRow :=
  [⟨.mm, .num 5, .num 7, .num 2, .num 10, .num 200, .num 15, .num 12⟩]

/-! ## Tide pipeline (`BuoyData.get_tides_noaa` / `get_tide_sesh_data`) -/

/-- Outcome of the NOAA water-level HTTP fetch: a JSON series of
`(timestamp, value)` pairs (timestamps modelled as rationals on a common
axis, values as rationals), or a requests-level failure (connection error
or the 5-second timeout). -/
inductive FetchResult where
  | payload (s : List (ℚ × ℚ))
  | reqError
deriving DecidableEq

/-- `BuoyData.get_tides_noaa`: a requests exception is caught, printed and
turned into `None`; a successful response is framed as the `t`/`v` table.
Selecting the `['t','v']` columns of a `DataFrame` built from an *empty*
series raises `KeyError` (an empty frame has no columns), which the
`except` clause does not catch. -/
def get_tides_noaa (fetch : FetchResult) : Except PyErr (Option (List (ℚ × ℚ))) :=
  match fetch with
  | .reqError => .ok none
  | .payload s => if s.isEmpty then .error .keyError else .ok (some s)

/-- Largest value of a list (`Series.max`). -/
def listMax : List ℚ → ℚ
  | [] => 0
  | x :: xs => xs.foldl max x

/-- Smallest value of a list (`Series.min`). -/
def listMin : List ℚ → ℚ
  | [] => 0
  | x :: xs => xs.foldl min x

/-- `Series.idxmax`: position of the first occurrence of the maximum. -/
def idxOfMax (l : List ℚ) : Nat := l.findIdx fun v => decide (v = listMax l)

/-- `Series.idxmin`: position of the first occurrence of the minimum. -/
def idxOfMin (l : List ℚ) : Nat := l.findIdx fun v => decide (v = listMin l)

/-- Insert a value into a sorted list. -/
def insertSorted (x : ℚ) : List ℚ → List ℚ
  | [] => [x]
  | y :: ys => if x ≤ y then x :: y :: ys else y :: insertSorted x ys

/-- Sort a list of rationals (ascending). -/
def sortRats (l : List ℚ) : List ℚ := l.foldr insertSorted []

/-- `Series.median`: middle element of the sorted values for odd length,
mean of the two middle elements for even length. -/
def listMedian (l : List ℚ) : ℚ :=
  let s := sortRats l
  if l.length % 2 = 1 then s.getD (l.length / 2) 0
  else (s.getD (l.length / 2 - 1) 0 + s.getD (l.length / 2) 0) / 2

/-- The tide summary returned by `get_tide_sesh_data`:
`{incoming, max_h, min_h, median_h}`. -/
structure TideStats where
  incoming : Bool
  max_h : ℚ
  min_h : ℚ
  median_h : ℚ
deriving DecidableEq, Repr

/-- The computation on a non-empty frame: max/min with the timestamps of
their first occurrences, the median, and
`incoming = max_height_time > min_height_time`. -/
def tideStats (s : List (ℚ × ℚ)) : TideStats :=
  let vals := s.map Prod.snd
  let maxT := (s.getD (idxOfMax vals) (0, 0)).1
  let minT := (s.getD (idxOfMin vals) (0, 0)).1
  { incoming := decide (minT < maxT)
    max_h := listMax vals
    min_h := listMin vals
    median_h := listMedian vals }

/-- `BuoyData.get_tide_sesh_data`: fetch, then `if not data.empty:` compute
the summary, else print an error and return `None`.  When the fetch failed,
`get_tides_noaa` returned `None` and `data.empty` raises `AttributeError`
(`None` has no attribute `empty`). -/
def get_tide_sesh_data (fetch : FetchResult) : Except PyErr (Option TideStats) :=
  match get_tides_noaa fetch with
  | .error e => .error e
  | .ok none => .error .attributeError
  | .ok (some s) => if s.isEmpty then .ok none else .ok (some (tideStats s))

/-- The claim's tide series `[(t0,1.2),(t1,3.5),(t2,0.4)]` under its
literal ordering `t1 after t2 after t0`: `t0 = 0`, `t2 = 5`, `t1 = 10`. -/
def tideSeriesLiteral : List (ℚ × ℚ) := [(0, 6/5), (10, 7/2), (5, 2/5)]

/-- The same values with the timestamps in chronological order
(`t0 = 0`, `t1 = 5`, `t2 = 10`). -/
def tideSeriesChron : List (ℚ × ℚ) := [(0, 6/5), (5, 7/2), (10, 2/5)]

/-- Observer: the error of a failed tide call. -/
def tideErrKind (r : Except PyErr (Option TideStats)) : Option PyErr :=
  match r with
  | .error e => some e
  | .ok _ => none

/-! ## Helper lemmas -/

/-- The computable `Rat.floor` agrees with the ambient `Int.floor`. -/
theorem rat_floor_eq_floor (q : ℚ) : q.floor = ⌊q⌋ := by
  rw [Rat.floor_def', Rat.floor_def]

/-- `round_half_even` is within one half of its argument. -/
theorem round_half_even_close (q : ℚ) : |(round_half_even q : ℚ) - q| ≤ 1/2 := by
  have h1 : (⌊q⌋ : ℚ) ≤ q := Int.floor_le q
  have h2 : q < ⌊q⌋ + 1 := Int.lt_floor_add_one q
  unfold round_half_even
  rw [rat_floor_eq_floor]
  split_ifs with ha hb hc <;>
    refine abs_le.mpr ⟨?_, ?_⟩ <;> push_cast <;> linarith

/-- Rounding to one decimal moves a rational by at most `1/20`. -/
theorem pyRound1_close (q : ℚ) : |pyRound1 q - q| ≤ 1/20 := by
  have h := abs_le.mp (round_half_even_close (10 * q))
  unfold pyRound1
  refine abs_le.mpr ⟨?_, ?_⟩ <;> obtain ⟨hl, hr⟩ := h <;> linarith

/-- C9: for every length `x`, the round trip
`feet_to_meters (meters_to_feet x)` lands within `0.1` of `x`: both
conversions round to one decimal and the exact conversion factors
`10000/3048` and `3048/10000` are mutual inverses, so the composed error is
at most `1/20 + (1/20) * (3048/10000) < 1/10`.  (Proved for all rational
lengths, hence in particular for every representative value.) -/
theorem c9_round_trip_within_tolerance (x : ℚ) :
    |feet_to_meters (meters_to_feet x) - x| ≤ 1/10 := by
  have h1 : |meters_to_feet x - x * (10000 / 3048)| ≤ 1/20 :=
    pyRound1_close (x * (10000 / 3048))
  have h2 : |feet_to_meters (meters_to_feet x) - meters_to_feet x * (3048 / 10000)| ≤ 1/20 :=
    pyRound1_close (meters_to_feet x * (3048 / 10000))
  have hkey : |meters_to_feet x * (3048 / 10000) - x| ≤ (1/20) * (3048 / 10000) := by
    have heq : meters_to_feet x * (3048 / 10000) - x =
        (meters_to_feet x - x * (10000 / 3048)) * (3048 / 10000) := by ring
    rw [heq, abs_mul, abs_of_pos (by norm_num : (0:ℚ) < 3048 / 10000)]
    exact mul_le_mul_of_nonneg_right h1 (by norm_num)
  calc |feet_to_meters (meters_to_feet x) - x|
      ≤ |feet_to_meters (meters_to_feet x) - meters_to_feet x * (3048 / 10000)| +
        |meters_to_feet x * (3048 / 10000) - x| := abs_sub_le _ _ _
    _ ≤ 1/20 + (1/20) * (3048 / 10000) := add_le_add h2 hkey
    _ ≤ 1/10 := by norm_num

/-- C7 (counterexample): the claim asserts `degreesToCardinal(337) = "N"`,
but `find_cardinal_direction` has no `+22.5°` centering offset — it indexes
`cardinals[((337 % 360) // 45) % 8] = cardinals[7]`, which is `"NW"`. -/
theorem c7_counterexample_337_is_NW :
    find_cardinal_direction 337 = "NW" ∧ "NW" ≠ "N" := by
  constructor
  · decide
  · decide

/-- C7 (amended): `find_cardinal_direction` maps a degree value to one of
the 8 compass points using 45°-wide buckets *aligned at due north* (no
`+22.5°` offset): the value is wrapped modulo 360 (handling negative and
`> 360` inputs), bucket `k` covers `[45k, 45(k+1))`, and the index is
reduced modulo 8; in particular `0 ↦ "N"`, `44 ↦ "N"`, `45 ↦ "NE"`, and
`337 ↦ "NW"` (not `"N"`). -/
theorem c7_amended_bucket_characterization :
    (∀ (d : ℤ) (k : ℕ), k < 8 → (45 * k : ℤ) ≤ d % 360 →
      d % 360 < 45 * (k + 1) → find_cardinal_direction d = cardinals.getD k "") ∧
    find_cardinal_direction 0 = "N" ∧ find_cardinal_direction 44 = "N" ∧
    find_cardinal_direction 45 = "NE" ∧ find_cardinal_direction 337 = "NW" := by
  refine ⟨?_, by decide, by decide, by decide, by decide⟩
  intro d k hk hlo hhi
  have h0 : (0:ℤ) ≤ d % 360 := Int.emod_nonneg d (by norm_num)
  obtain ⟨n, hn⟩ : ∃ n : ℕ, d % 360 = (n : ℤ) := ⟨(d % 360).toNat,
    (Int.toNat_of_nonneg h0).symm⟩
  have hlo2 : 45 * k ≤ n := by rw [hn] at hlo; exact_mod_cast hlo
  have hhi2 : n < 45 * (k + 1) := by rw [hn] at hhi; exact_mod_cast hhi
  have hnk : n / 45 = k := by omega
  have hdiv : (d % 360).fdiv 45 = (k : ℤ) := by
    rw [hn, show ((45:ℤ)) = ((45:ℕ) : ℤ) from rfl, ← Int.ofNat_fdiv]
    exact_mod_cast hnk
  unfold find_cardinal_direction
  rw [hdiv, Int.emod_eq_of_lt (by exact_mod_cast Nat.zero_le k)
    (by exact_mod_cast hk)]
  simp

/-- C8: `find_cardinal_direction` is periodic with period 360 degrees,
since `(d + 360) % 360 = d % 360`. -/
theorem c8_periodic_360 (d : ℤ) :
    find_cardinal_direction d = find_cardinal_direction (d + 360) := by
  unfold find_cardinal_direction
  have h : (d + 360) % 360 = d % 360 := by omega
  rw [h]

/-- C7 (witness): the bucket characterization applied at 100 degrees,
bucket 2 (`"E"`). -/
theorem c7_amended_witness :
    find_cardinal_direction 100 = cardinals.getD 2 "" :=
  c7_amended_bucket_characterization.1 100 2 (by decide) (by decide) (by decide)

/-- Every month has at least 28 days. -/
theorem daysInMonth_ge_28 (y mo : Nat) : 28 ≤ daysInMonth y mo := by
  unfold daysInMonth
  split_ifs <;> omega

/-- For a valid datetime, `addHoursDT` keeps the day-of-month exactly when
it keeps the whole calendar date: a rollover moves to the next calendar
date, whose day-of-month differs because every month has at least 28
days. -/
theorem addHoursDT_day_eq_iff (t : DT) (hv : ValidDT t) (k : Nat) :
    ((addHoursDT t k).day = t.day) ↔
      ((addHoursDT t k).year = t.year ∧ (addHoursDT t k).month = t.month ∧
        (addHoursDT t k).day = t.day) := by
  obtain ⟨h1, h2, h3, h4, h5, h6⟩ := hv
  have hd28 : 28 ≤ daysInMonth t.year t.month := daysInMonth_ge_28 t.year t.month
  unfold addHoursDT nextDate
  split_ifs with ha hb hc
  · exact iff_of_true rfl ⟨rfl, rfl, rfl⟩
  · exact iff_of_false (by simp) (by rintro ⟨-, -, h⟩; simp at h)
  · exact iff_of_false (by simp; omega) (by rintro ⟨-, -, h⟩; simp at h; omega)
  · exact iff_of_false (by simp; omega) (by rintro ⟨-, -, h⟩; simp at h; omega)

/-- C1: for every valid local calendar date and clock times,
`parse_time_and_date` returns exactly what the specification describes:
the UTC hour and minute of each Pacific-localized bound, and the UTC
day/month when the UTC *calendar day* of the start timestamp differs from
its local calendar day, the local day/month otherwise.  (The source only
compares day-of-month; for a valid date the two comparisons agree.) -/
theorem c1_parse_time_and_date_follows_spec (y mo d : Nat)
    (time_in time_out : SessionTime) (hv : ValidDT (mkDT y mo d time_in)) :
    parse_time_and_date y mo d time_in time_out =
      specResolveWindow y mo d time_in time_out := by
  have hiff := addHoursDT_day_eq_iff (mkDT y mo d time_in) hv
    (pacificOffsetHours (mkDT y mo d time_in))
  simp only [parse_time_and_date, specResolveWindow, pacificToUTC]
  refine congrArg _ (congrArg _ (congrArg _ (congrArg _ ?_)))
  refine if_congr ?_ rfl rfl
  have htup :
      ((addHoursDT (mkDT y mo d time_in) (pacificOffsetHours (mkDT y mo d time_in))).year,
        (addHoursDT (mkDT y mo d time_in) (pacificOffsetHours (mkDT y mo d time_in))).month,
        (addHoursDT (mkDT y mo d time_in) (pacificOffsetHours (mkDT y mo d time_in))).day) =
        ((mkDT y mo d time_in).year, (mkDT y mo d time_in).month,
          (mkDT y mo d time_in).day) ↔
      ((addHoursDT (mkDT y mo d time_in) (pacificOffsetHours (mkDT y mo d time_in))).year =
          (mkDT y mo d time_in).year ∧
        (addHoursDT (mkDT y mo d time_in) (pacificOffsetHours (mkDT y mo d time_in))).month =
          (mkDT y mo d time_in).month ∧
        (addHoursDT (mkDT y mo d time_in) (pacificOffsetHours (mkDT y mo d time_in))).day =
          (mkDT y mo d time_in).day) := by
    simp [Prod.mk.injEq]
  exact not_congr (hiff.trans htup.symm)

/-- C1 (witness): the resolution at the repository's own example session,
2024-09-08 10:30 to 12:16 Pacific daylight time. -/
theorem c1_witness :
    ValidDT (mkDT 2024 9 8 ⟨10, 30⟩) ∧
    parse_time_and_date 2024 9 8 ⟨10, 30⟩ ⟨12, 16⟩ =
      specResolveWindow 2024 9 8 ⟨10, 30⟩ ⟨12, 16⟩ :=
  ⟨by decide, c1_parse_time_and_date_follows_spec 2024 9 8 ⟨10, 30⟩ ⟨12, 16⟩ (by decide)⟩

/-- C2: a report row passes the awk filter constructed by `build_command`
exactly when its month and day match the resolved window and its hour and
minute fall within the window with the boundary-hour rules of the claim:
at the start hour only minutes ≥ `min_in`, at the end hour only minutes ≤
`min_out`, hours strictly between the bounds unconditionally. -/
theorem c2_row_predicate_iff (y mo d : Nat) (time_in time_out : SessionTime)
    (r : ReportRow) (hrIn minIn hrOut minOut month day : Nat)
    (hp : parse_time_and_date y mo d time_in time_out =
      (hrIn, minIn, hrOut, minOut, month, day)) :
    (evalCond r (build_command y mo d time_in time_out) = true ↔
      specKeepsRow hrIn minIn hrOut minOut month day r) := by
  unfold build_command
  rw [hp]
  simp only [evalCond, evalCmp, fieldVal, timeCond, dateCond, specKeepsRow,
    Bool.and_eq_true, Bool.or_eq_true, decide_eq_true_eq]
  tauto

/-- C2 (witness): the filter for the 2024-09-08 10:30-12:16 session
(resolved to UTC hours 17:30-19:16 of September 8) applied to a row
stamped 17:45. -/
theorem c2_witness :
    parse_time_and_date 2024 9 8 ⟨10, 30⟩ ⟨12, 16⟩ = (17, 30, 19, 16, 9, 8) ∧
    (evalCond ⟨24, 9, 8, 17, 45⟩ (build_command 2024 9 8 ⟨10, 30⟩ ⟨12, 16⟩) = true ↔
      specKeepsRow 17 30 19 16 9 8 ⟨24, 9, 8, 17, 45⟩) :=
  ⟨by decide, c2_row_predicate_iff 2024 9 8 ⟨10, 30⟩ ⟨12, 16⟩ ⟨24, 9, 8, 17, 45⟩
    17 30 19 16 9 8 (by decide)⟩

/-- Looking a key up after a dict write. -/
theorem lookup_setk (m : PyDict) (k k2 : ColKey) (v : PyVal) :
    List.lookup k (setk m k2 v) = if k = k2 then some v else List.lookup k m := by
  induction m with
  | nil =>
    by_cases h : k = k2
    · subst h; simp [setk]
    · simp [setk, List.lookup_cons, beq_false_of_ne h, h]
  | cons hd tl ih =>
    obtain ⟨a, b⟩ := hd
    by_cases h1 : a = k2
    · subst h1
      by_cases h2 : k = a
      · subst h2; simp [setk]
      · simp [setk, List.lookup_cons, beq_false_of_ne h2, h2]
    · by_cases h2 : k = a
      · subst h2
        simp [setk, h1, Ne.symm h1, List.lookup_cons]
      · simp [setk, h1, List.lookup_cons, beq_false_of_ne h2, ih]

/-- `dget` only ever raises `KeyError`. -/
theorem dget_err {m : PyDict} {k : ColKey} {e : PyErr}
    (h : dget m k = .error e) : e = .keyError := by
  unfold dget at h
  split at h <;> simp_all

/-- `pyInt` only ever raises `ValueError`. -/
theorem pyInt_err {v : PyVal} {e : PyErr} (h : pyInt v = .error e) :
    e = .valueError := by
  cases v <;> simp_all [pyInt]

/-- A conversion statement raises only `KeyError`. -/
theorem convStep_err {key : ColKey} {f : ℚ → ℚ} {m : PyDict} {e : PyErr}
    (h : convStep key f m = .error e) : e = .keyError := by
  unfold convStep at h
  cases hd : dget m key with
  | error e0 => rw [hd] at h; simp at h; exact h ▸ dget_err hd
  | ok v =>
    rw [hd] at h
    by_cases ht : truthy v <;> simp [ht] at h

/-- A cardinal-direction statement raises only `KeyError` or `ValueError`. -/
theorem cardStep_err {src dst : ColKey} {m : PyDict} {e : PyErr}
    (h : cardStep src dst m = .error e) : e = .keyError ∨ e = .valueError := by
  unfold cardStep at h
  cases hd : dget m src with
  | error e0 =>
    rw [hd] at h
    simp at h
    exact Or.inl (h ▸ dget_err hd)
  | ok v =>
    rw [hd] at h
    by_cases ht : truthy v
    · simp only [ht, if_true] at h
      cases hp : pyInt v with
      | error e1 =>
        rw [hp] at h
        simp at h
        exact Or.inr (h ▸ pyInt_err hp)
      | ok i => rw [hp] at h; simp at h
    · simp [ht] at h

/-- Sequencing propagates the error classification. -/
theorem andThenConv_err {step : PyDict → Except PyErr PyDict}
    {r : Except PyErr PyDict} {e : PyErr}
    (h : andThenConv step r = .error e)
    (hstep : ∀ m2 e2, step m2 = .error e2 → e2 = .keyError ∨ e2 = .valueError)
    (hr : ∀ e2, r = .error e2 → e2 = .keyError ∨ e2 = .valueError) :
    e = .keyError ∨ e = .valueError := by
  cases r with
  | error e0 =>
    simp [andThenConv] at h
    exact h ▸ hr e0 rfl
  | ok m2 =>
    simp [andThenConv] at h
    exact hstep m2 e h

/-- The unit-conversion step raises only `KeyError` or `ValueError` —
never `InvalidTimeframeException`. -/
theorem convert_err {m : PyDict} {e : PyErr}
    (h : convert_means_dict_units_to_std m = .error e) :
    e = .keyError ∨ e = .valueError := by
  unfold convert_means_dict_units_to_std at h
  refine andThenConv_err h (fun m2 e2 h2 => Or.inl (convStep_err h2)) (fun e2 h2 => ?_)
  refine andThenConv_err h2 (fun m2 e2 h2 => Or.inl (convStep_err h2)) (fun e2 h2 => ?_)
  refine andThenConv_err h2 (fun m2 e2 h2 => cardStep_err h2) (fun e2 h2 => ?_)
  refine andThenConv_err h2 (fun m2 e2 h2 => Or.inl (convStep_err h2)) (fun e2 h2 => ?_)
  refine andThenConv_err h2 (fun m2 e2 h2 => Or.inl (convStep_err h2)) (fun e2 h2 => ?_)
  refine andThenConv_err h2 (fun m2 e2 h2 => Or.inl (convStep_err h2)) (fun e2 h2 => ?_)
  exact cardStep_err h2

/-- Unit conversion never reports an invalid timeframe. -/
theorem convert_no_invalidTimeframe (m : PyDict) :
    isInvalidTimeframeErr (convert_means_dict_units_to_std m) = false := by
  cases hc : convert_means_dict_units_to_std m with
  | ok d => simp [isInvalidTimeframeErr]
  | error e => rcases convert_err hc with h | h <;> simp [isInvalidTimeframeErr, h]

/-- C5 (counterexample): with `timeIn = "14:30"` and `timeOut = "14:10"`,
`timeIn` is *not* earlier than `timeOut`, yet the validation of
`get_mean_meteor_vals_2` compares only the hour digits (`14 > 14` is
false), so no `InvalidTimeframeException` is raised and the fetch is
performed. -/
theorem c5_counterexample_minutes_ignored :
    ¬ timeEarlier ⟨14, 30⟩ ⟨14, 10⟩ ∧
    (get_mean_meteor_vals_2 ⟨14, 30⟩ ⟨14, 10⟩ tblWvhtMM).2 = true ∧
    isInvalidTimeframeErr (get_mean_meteor_vals_2 ⟨14, 30⟩ ⟨14, 10⟩ tblWvhtMM).1 = false := by
  refine ⟨by decide, rfl, ?_⟩
  exact convert_no_invalidTimeframe _

/-- C5 (amended): `get_mean_meteor_vals_2` fails with
`InvalidTimeframeException` before the fetch exactly when the *hour* of
`timeIn` is strictly greater than the hour of `timeOut`; when the hours
satisfy `hourIn ≤ hourOut` the fetch is performed and no
`InvalidTimeframeException` is ever raised, even if `timeIn ≥ timeOut` by
minutes. -/
theorem c5_amended_hour_only_validation (time_in time_out : SessionTime)
    (tbl : List MetRow) :
    (time_out.hh < time_in.hh →
      get_mean_meteor_vals_2 time_in time_out tbl = (.error .invalidTimeframe, false)) ∧
    (time_in.hh ≤ time_out.hh →
      (get_mean_meteor_vals_2 time_in time_out tbl).2 = true ∧
      isInvalidTimeframeErr (get_mean_meteor_vals_2 time_in time_out tbl).1 = false) := by
  constructor
  · intro h
    unfold get_mean_meteor_vals_2
    rw [if_pos h]
  · intro h
    unfold get_mean_meteor_vals_2
    rw [if_neg (by omega)]
    exact ⟨rfl, convert_no_invalidTimeframe _⟩

/-- C5 (witness): the specification's own example, `timeIn = "15:00"`,
`timeOut = "14:00"`: hour 15 exceeds hour 14, so the call fails with
`InvalidTimeframeException` and no fetch happens. -/
theorem c5_amended_witness :
    (14 : Nat) < 15 ∧
    get_mean_meteor_vals_2 ⟨15, 0⟩ ⟨14, 0⟩ tblWvhtMM =
      (.error .invalidTimeframe, false) :=
  ⟨by decide, (c5_amended_hour_only_validation ⟨15, 0⟩ ⟨14, 0⟩ tblWvhtMM).1 (by decide)⟩

/-- C6 (counterexample): on a failed or timed-out fetch
`get_tide_sesh_data` raises `AttributeError` (`get_tides_noaa` catches the
requests exception and returns `None`, and `None.empty` is then accessed);
on a fetch that returns an empty series the column selection inside
`get_tides_noaa` raises `KeyError`.  Neither is the `DataUnavailable`
error the claim requires — no such error exists in the code. -/
theorem c6_counterexample_no_dataunavailable :
    tideErrKind (get_tide_sesh_data .reqError) = some .attributeError ∧
    tideErrKind (get_tide_sesh_data (.payload [])) = some .keyError ∧
    some PyErr.attributeError ≠ some PyErr.dataUnavailable ∧
    some PyErr.keyError ≠ some PyErr.dataUnavailable :=
  ⟨rfl, rfl, by decide, by decide⟩

/-- C6 (amended): when the tide fetch fails or times out, the requests
exception is caught and `None` is returned, after which
`get_tide_sesh_data` crashes with `AttributeError`; when the fetch
succeeds but the series is empty, `KeyError` propagates out of
`get_tides_noaa`.  Both failures propagate as raised exceptions (no
substitute statistics are produced), but as Python builtin errors, not as
a dedicated `DataUnavailable` error. -/
theorem c6_amended_failure_modes :
    get_tide_sesh_data .reqError = .error .attributeError ∧
    get_tide_sesh_data (.payload []) = .error .keyError :=
  ⟨rfl, rfl⟩

/-- A conversion statement leaves every other key unchanged. -/
theorem convStep_lookup_ne {key : ColKey} {f : ℚ → ℚ} {m m2 : PyDict}
    {k : ColKey} (h : convStep key f m = .ok m2) (hk : k ≠ key) :
    List.lookup k m2 = List.lookup k m := by
  unfold convStep at h
  cases hd : dget m key with
  | error e0 => rw [hd] at h; simp at h
  | ok v =>
    rw [hd] at h
    by_cases ht : truthy v
    · simp only [ht, if_true] at h
      simp at h
      rw [← h, lookup_setk, if_neg hk]
    · simp [ht] at h
      rw [← h]

/-- A cardinal-direction statement leaves every key other than its
destination unchanged. -/
theorem cardStep_lookup_ne {src dst : ColKey} {m m2 : PyDict} {k : ColKey}
    (h : cardStep src dst m = .ok m2) (hk : k ≠ dst) :
    List.lookup k m2 = List.lookup k m := by
  unfold cardStep at h
  cases hd : dget m src with
  | error e0 => rw [hd] at h; simp at h
  | ok v =>
    rw [hd] at h
    by_cases ht : truthy v
    · simp only [ht, if_true] at h
      cases hp : pyInt v with
      | error e1 => rw [hp] at h; simp at h
      | ok i =>
        rw [hp] at h
        simp at h
        rw [← h, lookup_setk, if_neg hk]
    · simp [ht] at h
      rw [← h]

/-- A conversion statement whose value is exactly `0.0` is skipped. -/
theorem convStep_zero {key : ColKey} {f : ℚ → ℚ} {m : PyDict}
    (h : List.lookup key m = some (.num 0)) : convStep key f m = .ok m := by
  unfold convStep dget
  rw [h]
  simp [truthy]

/-- A cardinal-direction statement whose source is exactly `0.0` is
skipped: no cardinal field is produced. -/
theorem cardStep_zero {src dst : ColKey} {m : PyDict}
    (h : List.lookup src m = some (.num 0)) : cardStep src dst m = .ok m := by
  unfold cardStep dget
  rw [h]
  simp [truthy]

/-- A conversion statement on a NaN mean *does* run (NaN is truthy) and
stores NaN back. -/
theorem convStep_nan {key : ColKey} {f : ℚ → ℚ} {m : PyDict}
    (h : List.lookup key m = some .nan) :
    convStep key f m = .ok (setk m key .nan) := by
  unfold convStep dget
  rw [h]
  simp [truthy, convNum]

/-- A cardinal-direction statement on a NaN mean runs `int(nan)` and
raises `ValueError`. -/
theorem cardStep_nan_err {src : ColKey} (dst : ColKey) {m : PyDict}
    (h : List.lookup src m = some .nan) :
    cardStep src dst m = .error .valueError := by
  unfold cardStep dget
  rw [h]
  simp [truthy, pyInt]

/-- A conversion statement on a present key returns normally. -/
theorem convStep_ok_of_present {key : ColKey} (f : ℚ → ℚ) {m : PyDict}
    {v : PyVal} (h : List.lookup key m = some v) :
    ∃ m2, convStep key f m = .ok m2 := by
  unfold convStep dget
  rw [h]
  by_cases ht : truthy v <;> simp [ht]

/-- A cardinal-direction statement on a numeric source returns normally. -/
theorem cardStep_ok_of_num {src : ColKey} (dst : ColKey) {m : PyDict} {q : ℚ}
    (h : List.lookup src m = some (.num q)) :
    ∃ m2, cardStep src dst m = .ok m2 := by
  unfold cardStep dget
  rw [h]
  by_cases ht : truthy (PyVal.num q) <;> simp [ht, pyInt]

/-- A successful unit conversion decomposes into its seven successful
statements. -/
theorem convert_ok_decomp {m dout : PyDict}
    (h : convert_means_dict_units_to_std m = .ok dout) :
    ∃ m1 m2 m3 m4 m5 m6,
      cardStep .WDIR .WDIR_CARD m = .ok m1 ∧
      convStep .WSPD meters_per_sec_to_mph m1 = .ok m2 ∧
      convStep .GST meters_per_sec_to_mph m2 = .ok m3 ∧
      convStep .WVHT meters_to_feet m3 = .ok m4 ∧
      cardStep .MWD .MWD_CARD m4 = .ok m5 ∧
      convStep .ATMP celsius_to_fahrenheit m5 = .ok m6 ∧
      convStep .WTMP celsius_to_fahrenheit m6 = .ok dout := by
  unfold convert_means_dict_units_to_std at h
  cases h1 : cardStep .WDIR .WDIR_CARD m with
  | error e => rw [h1] at h; simp [andThenConv] at h
  | ok m1 =>
  rw [h1] at h
  simp only [andThenConv] at h
  cases h2 : convStep .WSPD meters_per_sec_to_mph m1 with
  | error e => rw [h2] at h; simp [andThenConv] at h
  | ok m2 =>
  rw [h2] at h
  simp only [andThenConv] at h
  cases h3 : convStep .GST meters_per_sec_to_mph m2 with
  | error e => rw [h3] at h; simp [andThenConv] at h
  | ok m3 =>
  rw [h3] at h
  simp only [andThenConv] at h
  cases h4 : convStep .WVHT meters_to_feet m3 with
  | error e => rw [h4] at h; simp [andThenConv] at h
  | ok m4 =>
  rw [h4] at h
  simp only [andThenConv] at h
  cases h5 : cardStep .MWD .MWD_CARD m4 with
  | error e => rw [h5] at h; simp [andThenConv] at h
  | ok m5 =>
  rw [h5] at h
  simp only [andThenConv] at h
  cases h6 : convStep .ATMP celsius_to_fahrenheit m5 with
  | error e => rw [h6] at h; simp [andThenConv] at h
  | ok m6 =>
  rw [h6] at h
  simp only [andThenConv] at h
  exact ⟨m1, m2, m3, m4, m5, m6, rfl, h2, h3, h4, h5, h6, h⟩

/-- A successful unit conversion built from seven successful statements. -/
theorem convert_ok_comp {m m1 m2 m3 m4 m5 m6 dout : PyDict}
    (h1 : cardStep .WDIR .WDIR_CARD m = .ok m1)
    (h2 : convStep .WSPD meters_per_sec_to_mph m1 = .ok m2)
    (h3 : convStep .GST meters_per_sec_to_mph m2 = .ok m3)
    (h4 : convStep .WVHT meters_to_feet m3 = .ok m4)
    (h5 : cardStep .MWD .MWD_CARD m4 = .ok m5)
    (h6 : convStep .ATMP celsius_to_fahrenheit m5 = .ok m6)
    (h7 : convStep .WTMP celsius_to_fahrenheit m6 = .ok dout) :
    convert_means_dict_units_to_std m = .ok dout := by
  unfold convert_means_dict_units_to_std
  rw [h1]
  simp only [andThenConv]
  rw [h2]
  simp only [andThenConv]
  rw [h3]
  simp only [andThenConv]
  rw [h4]
  simp only [andThenConv]
  rw [h5]
  simp only [andThenConv]
  rw [h6]
  simp only [andThenConv]
  exact h7

/-- Keys other than `WVHT`, `MWD_CARD`, `ATMP`, `WTMP` survive the last
four conversion statements unchanged. -/
theorem convert_tail_preserve {m3 m4 m5 m6 dout : PyDict} {k : ColKey}
    (h4 : convStep .WVHT meters_to_feet m3 = .ok m4)
    (h5 : cardStep .MWD .MWD_CARD m4 = .ok m5)
    (h6 : convStep .ATMP celsius_to_fahrenheit m5 = .ok m6)
    (h7 : convStep .WTMP celsius_to_fahrenheit m6 = .ok dout)
    (hk4 : k ≠ .WVHT) (hk5 : k ≠ .MWD_CARD) (hk6 : k ≠ .ATMP)
    (hk7 : k ≠ .WTMP) :
    List.lookup k dout = List.lookup k m3 := by
  rw [convStep_lookup_ne h7 hk7, convStep_lookup_ne h6 hk6,
    cardStep_lookup_ne h5 hk5, convStep_lookup_ne h4 hk4]

/-- Keys other than `WDIR_CARD`, `WSPD`, `GST` survive the first three
conversion statements unchanged. -/
theorem convert_front_preserve {m m1 m2 m3 : PyDict} {k : ColKey}
    (h1 : cardStep .WDIR .WDIR_CARD m = .ok m1)
    (h2 : convStep .WSPD meters_per_sec_to_mph m1 = .ok m2)
    (h3 : convStep .GST meters_per_sec_to_mph m2 = .ok m3)
    (hk1 : k ≠ .WDIR_CARD) (hk2 : k ≠ .WSPD) (hk3 : k ≠ .GST) :
    List.lookup k m3 = List.lookup k m := by
  rw [convStep_lookup_ne h3 hk3, convStep_lookup_ne h2 hk2,
    cardStep_lookup_ne h1 hk1]

/-- C10: a metric whose rounded mean is exactly `0.0` is falsy in Python,
so its `if means[key]:` statement is skipped: a zero wind or wave direction
produces no `WDIR_CARD`/`MWD_CARD` field, a zero temperature is not
converted to 32 °F, and a zero speed or height keeps its original unit.
Stated for an arbitrary means dict over the eight column keys, conditional
on the conversion returning normally. -/
theorem c10_zero_mean_left_unconverted (w ws g wv dp mw atm wtm : PyVal) :
    (w = .num 0 → ∀ dout,
      convert_means_dict_units_to_std (mkMeansDict w ws g wv dp mw atm wtm) = .ok dout →
      List.lookup ColKey.WDIR_CARD dout = none ∧
      List.lookup ColKey.WDIR dout = some (.num 0)) ∧
    (mw = .num 0 → ∀ dout,
      convert_means_dict_units_to_std (mkMeansDict w ws g wv dp mw atm wtm) = .ok dout →
      List.lookup ColKey.MWD_CARD dout = none ∧
      List.lookup ColKey.MWD dout = some (.num 0)) ∧
    (ws = .num 0 → ∀ dout,
      convert_means_dict_units_to_std (mkMeansDict w ws g wv dp mw atm wtm) = .ok dout →
      List.lookup ColKey.WSPD dout = some (.num 0)) ∧
    (g = .num 0 → ∀ dout,
      convert_means_dict_units_to_std (mkMeansDict w ws g wv dp mw atm wtm) = .ok dout →
      List.lookup ColKey.GST dout = some (.num 0)) ∧
    (wv = .num 0 → ∀ dout,
      convert_means_dict_units_to_std (mkMeansDict w ws g wv dp mw atm wtm) = .ok dout →
      List.lookup ColKey.WVHT dout = some (.num 0)) ∧
    (atm = .num 0 → ∀ dout,
      convert_means_dict_units_to_std (mkMeansDict w ws g wv dp mw atm wtm) = .ok dout →
      List.lookup ColKey.ATMP dout = some (.num 0)) ∧
    (wtm = .num 0 → ∀ dout,
      convert_means_dict_units_to_std (mkMeansDict w ws g wv dp mw atm wtm) = .ok dout →
      List.lookup ColKey.WTMP dout = some (.num 0)) := by
  refine ⟨?_, ?_, ?_, ?_, ?_, ?_, ?_⟩
  · intro hw dout hc
    subst hw
    obtain ⟨m1, m2, m3, m4, m5, m6, h1, h2, h3, h4, h5, h6, h7⟩ :=
      convert_ok_decomp hc
    have hm1 : m1 = mkMeansDict (.num 0) ws g wv dp mw atm wtm := by
      have := h1.symm.trans (cardStep_zero rfl)
      simpa using this
    subst hm1
    constructor
    · rw [convert_tail_preserve h4 h5 h6 h7 (by decide) (by decide) (by decide)
        (by decide), convStep_lookup_ne h3 (by decide),
        convStep_lookup_ne h2 (by decide)]
      rfl
    · rw [convert_tail_preserve h4 h5 h6 h7 (by decide) (by decide) (by decide)
        (by decide), convStep_lookup_ne h3 (by decide),
        convStep_lookup_ne h2 (by decide)]
      rfl
  · intro hmw dout hc
    subst hmw
    obtain ⟨m1, m2, m3, m4, m5, m6, h1, h2, h3, h4, h5, h6, h7⟩ :=
      convert_ok_decomp hc
    have l4 : List.lookup ColKey.MWD m4 = some (.num 0) := by
      rw [convStep_lookup_ne h4 (by decide),
        convert_front_preserve h1 h2 h3 (by decide) (by decide) (by decide)]
      rfl
    have hm5 : m5 = m4 := by
      have := h5.symm.trans (cardStep_zero l4)
      simpa using this
    subst hm5
    constructor
    · rw [convStep_lookup_ne h7 (by decide), convStep_lookup_ne h6 (by decide),
        convStep_lookup_ne h4 (by decide),
        convert_front_preserve h1 h2 h3 (by decide) (by decide) (by decide)]
      rfl
    · rw [convStep_lookup_ne h7 (by decide), convStep_lookup_ne h6 (by decide),
        convStep_lookup_ne h4 (by decide),
        convert_front_preserve h1 h2 h3 (by decide) (by decide) (by decide)]
      rfl
  · intro hws dout hc
    subst hws
    obtain ⟨m1, m2, m3, m4, m5, m6, h1, h2, h3, h4, h5, h6, h7⟩ :=
      convert_ok_decomp hc
    have l1 : List.lookup ColKey.WSPD m1 = some (.num 0) := by
      rw [cardStep_lookup_ne h1 (by decide)]
      rfl
    have hm2 : m2 = m1 := by
      have := h2.symm.trans (convStep_zero l1)
      simpa using this
    subst hm2
    rw [convert_tail_preserve h4 h5 h6 h7 (by decide) (by decide) (by decide)
      (by decide), convStep_lookup_ne h3 (by decide)]
    exact l1
  · intro hg dout hc
    subst hg
    obtain ⟨m1, m2, m3, m4, m5, m6, h1, h2, h3, h4, h5, h6, h7⟩ :=
      convert_ok_decomp hc
    have l2 : List.lookup ColKey.GST m2 = some (.num 0) := by
      rw [convStep_lookup_ne h2 (by decide), cardStep_lookup_ne h1 (by decide)]
      rfl
    have hm3 : m3 = m2 := by
      have := h3.symm.trans (convStep_zero l2)
      simpa using this
    subst hm3
    rw [convert_tail_preserve h4 h5 h6 h7 (by decide) (by decide) (by decide)
      (by decide)]
    exact l2
  · intro hwv dout hc
    subst hwv
    obtain ⟨m1, m2, m3, m4, m5, m6, h1, h2, h3, h4, h5, h6, h7⟩ :=
      convert_ok_decomp hc
    have l3 : List.lookup ColKey.WVHT m3 = some (.num 0) := by
      rw [convert_front_preserve h1 h2 h3 (by decide) (by decide) (by decide)]
      rfl
    have hm4 : m4 = m3 := by
      have := h4.symm.trans (convStep_zero l3)
      simpa using this
    subst hm4
    rw [convStep_lookup_ne h7 (by decide), convStep_lookup_ne h6 (by decide),
      cardStep_lookup_ne h5 (by decide)]
    exact l3
  · intro hatm dout hc
    subst hatm
    obtain ⟨m1, m2, m3, m4, m5, m6, h1, h2, h3, h4, h5, h6, h7⟩ :=
      convert_ok_decomp hc
    have l5 : List.lookup ColKey.ATMP m5 = some (.num 0) := by
      rw [cardStep_lookup_ne h5 (by decide), convStep_lookup_ne h4 (by decide),
        convert_front_preserve h1 h2 h3 (by decide) (by decide) (by decide)]
      rfl
    have hm6 : m6 = m5 := by
      have := h6.symm.trans (convStep_zero l5)
      simpa using this
    subst hm6
    rw [convStep_lookup_ne h7 (by decide)]
    exact l5
  · intro hwtm dout hc
    subst hwtm
    obtain ⟨m1, m2, m3, m4, m5, m6, h1, h2, h3, h4, h5, h6, h7⟩ :=
      convert_ok_decomp hc
    have l6 : List.lookup ColKey.WTMP m6 = some (.num 0) := by
      rw [convStep_lookup_ne h6 (by decide), cardStep_lookup_ne h5 (by decide),
        convStep_lookup_ne h4 (by decide),
        convert_front_preserve h1 h2 h3 (by decide) (by decide) (by decide)]
      rfl
    have hdout : dout = m6 := by
      have := h7.symm.trans (convStep_zero l6)
      simpa using this
    subst hdout
    exact l6

/-- C10 (witness): the all-zero means dict converts to itself — no
cardinal field is added and the zero entries keep their values. -/
theorem c10_witness :
    List.lookup ColKey.WDIR_CARD
      (mkMeansDict (.num 0) (.num 0) (.num 0) (.num 0) (.num 0) (.num 0)
        (.num 0) (.num 0)) = none ∧
    List.lookup ColKey.WDIR
      (mkMeansDict (.num 0) (.num 0) (.num 0) (.num 0) (.num 0) (.num 0)
        (.num 0) (.num 0)) = some (PyVal.num 0) :=
  (c10_zero_mean_left_unconverted (.num 0) (.num 0) (.num 0) (.num 0) (.num 0)
    (.num 0) (.num 0) (.num 0)).1 rfl
    (mkMeansDict (.num 0) (.num 0) (.num 0) (.num 0) (.num 0) (.num 0)
      (.num 0) (.num 0)) (by rfl)

/-- A column whose every cell is missing or non-numeric has a NaN mean. -/
theorem colMean_nan_of_all_missing {tbl : List MetRow} {f : MetRow → RawCell}
    (h : ∀ r ∈ tbl, rawToNum (f r) = none) : colMean (tbl.map f) = .nan := by
  unfold colMean
  have hnil : (tbl.map f).filterMap rawToNum = [] := by
    rw [List.filterMap_eq_nil_iff]
    intro a ha
    obtain ⟨r, hr, rfl⟩ := List.mem_map.mp ha
    exact h r hr
  simp [hnil]

/-- A column mean is NaN or a number. -/
theorem colMean_cases (cells : List RawCell) :
    colMean cells = .nan ∨ ∃ q, colMean cells = .num q := by
  by_cases h : (List.filterMap rawToNum cells).isEmpty
  · left
    simp [colMean, h]
  · right
    exact ⟨pyRound2 ((List.filterMap rawToNum cells).sum /
      ((List.filterMap rawToNum cells).length : ℚ)), by simp [colMean, h]⟩

/-- C4 (counterexample): on a table whose wave-height column is entirely
the `"MM"` sentinel, the statistics still contain the `WVHT` key — bound
to NaN — because `Series.mean()` of an all-null column is NaN and
`to_dict()` keeps every column; moreover the conversion step *does* run on
the NaN mean (NaN is truthy), and on a table whose wind-direction column
is all-`"MM"` the attempted conversion `int(nan)` raises `ValueError`. -/
theorem c4_counterexample_nan_key_emitted :
    lookupInResult (get_mean_meteor_vals_2 ⟨10, 0⟩ ⟨12, 0⟩ tblWvhtMM).1
      ColKey.WVHT = some PyVal.nan ∧
    some PyVal.nan ≠ (none : Option PyVal) ∧
    meteorErrKind (get_mean_meteor_vals_2 ⟨10, 0⟩ ⟨12, 0⟩ tblWdirMM).1 =
      some PyErr.valueError := by
  refine ⟨by with_unfolding_all decide, by simp, by with_unfolding_all decide⟩

/-- C4 (amended): a metric column with zero non-null observations yields a
NaN mean whose key is *present* in the statistics (not omitted), and the
unit-conversion step does not skip it: NaN is truthy, so the wave-height
entry is "converted" (NaN in, NaN out) and stays present, while an
all-null direction column makes the conversion fail with `ValueError` from
`int(nan)`. -/
theorem c4_amended_nan_mean_key_present :
    (∀ (tbl : List MetRow) (time_in time_out : SessionTime),
      time_in.hh ≤ time_out.hh →
      (∀ r ∈ tbl, rawToNum r.WVHT = none) →
      colMean (tbl.map MetRow.WDIR) ≠ .nan →
      colMean (tbl.map MetRow.MWD) ≠ .nan →
      isOkE (get_mean_meteor_vals_2 time_in time_out tbl).1 = true ∧
      lookupInResult (get_mean_meteor_vals_2 time_in time_out tbl).1
        ColKey.WVHT = some PyVal.nan) ∧
    (∀ (tbl : List MetRow) (time_in time_out : SessionTime),
      time_in.hh ≤ time_out.hh →
      (∀ r ∈ tbl, rawToNum r.WDIR = none) →
      (get_mean_meteor_vals_2 time_in time_out tbl).1 = .error .valueError) := by
  constructor
  · intro tbl time_in time_out ht hwv hwdir hmwd
    unfold get_mean_meteor_vals_2
    rw [if_neg (by omega)]
    obtain ⟨qa, hqa⟩ : ∃ q, colMean (tbl.map MetRow.WDIR) = .num q := by
      rcases colMean_cases (tbl.map MetRow.WDIR) with h | h
      · exact absurd h hwdir
      · exact h
    obtain ⟨qm, hqm⟩ : ∃ q, colMean (tbl.map MetRow.MWD) = .num q := by
      rcases colMean_cases (tbl.map MetRow.MWD) with h | h
      · exact absurd h hmwd
      · exact h
    have lWDIR : List.lookup ColKey.WDIR (meansDict tbl) = some (.num qa) := by
      rw [show List.lookup ColKey.WDIR (meansDict tbl) =
        some (colMean (tbl.map MetRow.WDIR)) from rfl, hqa]
    obtain ⟨m1, h1⟩ := cardStep_ok_of_num ColKey.WDIR_CARD lWDIR
    have l2 : List.lookup ColKey.WSPD m1 =
        some (colMean (tbl.map MetRow.WSPD)) :=
      (cardStep_lookup_ne h1 (by decide)).trans rfl
    obtain ⟨m2, h2⟩ := convStep_ok_of_present meters_per_sec_to_mph l2
    have l3 : List.lookup ColKey.GST m2 =
        some (colMean (tbl.map MetRow.GST)) :=
      ((convStep_lookup_ne h2 (by decide)).trans
        (cardStep_lookup_ne h1 (by decide))).trans rfl
    obtain ⟨m3, h3⟩ := convStep_ok_of_present meters_per_sec_to_mph l3
    have l4 : List.lookup ColKey.WVHT m3 = some PyVal.nan := by
      rw [convStep_lookup_ne h3 (by decide), convStep_lookup_ne h2 (by decide),
        cardStep_lookup_ne h1 (by decide),
        show List.lookup ColKey.WVHT (meansDict tbl) =
          some (colMean (tbl.map MetRow.WVHT)) from rfl,
        colMean_nan_of_all_missing hwv]
    have h4 : convStep ColKey.WVHT meters_to_feet m3 =
        .ok (setk m3 ColKey.WVHT .nan) := convStep_nan l4
    have l5 : List.lookup ColKey.MWD (setk m3 ColKey.WVHT .nan) =
        some (.num qm) := by
      rw [lookup_setk, if_neg (by decide), convStep_lookup_ne h3 (by decide),
        convStep_lookup_ne h2 (by decide), cardStep_lookup_ne h1 (by decide),
        show List.lookup ColKey.MWD (meansDict tbl) =
          some (colMean (tbl.map MetRow.MWD)) from rfl, hqm]
    obtain ⟨m5, h5⟩ := cardStep_ok_of_num ColKey.MWD_CARD l5
    have l6 : List.lookup ColKey.ATMP m5 =
        some (colMean (tbl.map MetRow.ATMP)) := by
      rw [cardStep_lookup_ne h5 (by decide), lookup_setk, if_neg (by decide),
        convStep_lookup_ne h3 (by decide), convStep_lookup_ne h2 (by decide),
        cardStep_lookup_ne h1 (by decide)]
      rfl
    obtain ⟨m6, h6⟩ := convStep_ok_of_present celsius_to_fahrenheit l6
    have l7 : List.lookup ColKey.WTMP m6 =
        some (colMean (tbl.map MetRow.WTMP)) := by
      rw [convStep_lookup_ne h6 (by decide), cardStep_lookup_ne h5 (by decide),
        lookup_setk, if_neg (by decide), convStep_lookup_ne h3 (by decide),
        convStep_lookup_ne h2 (by decide), cardStep_lookup_ne h1 (by decide)]
      rfl
    obtain ⟨m7, h7⟩ := convStep_ok_of_present celsius_to_fahrenheit l7
    have hconv := convert_ok_comp h1 h2 h3 h4 h5 h6 h7
    rw [hconv]
    refine ⟨rfl, ?_⟩
    show List.lookup ColKey.WVHT m7 = some PyVal.nan
    rw [convStep_lookup_ne h7 (by decide), convStep_lookup_ne h6 (by decide),
      cardStep_lookup_ne h5 (by decide), lookup_setk]
    simp
  · intro tbl time_in time_out ht hwdirall
    unfold get_mean_meteor_vals_2
    rw [if_neg (by omega)]
    have lWDIR : List.lookup ColKey.WDIR (meansDict tbl) = some PyVal.nan := by
      rw [show List.lookup ColKey.WDIR (meansDict tbl) =
        some (colMean (tbl.map MetRow.WDIR)) from rfl,
        colMean_nan_of_all_missing hwdirall]
    have hstep := cardStep_nan_err ColKey.WDIR_CARD lWDIR
    unfold convert_means_dict_units_to_std
    rw [hstep]
    simp [andThenConv]

/-- C4 (witness): the single-row all-`"MM"`-wave-height table: the call
returns normally and its statistics contain `WVHT ↦ NaN`. -/
theorem c4_amended_witness :
    (∀ r ∈ tblWvhtMM, rawToNum r.WVHT = none) ∧
    isOkE (get_mean_meteor_vals_2 ⟨10, 0⟩ ⟨12, 0⟩ tblWvhtMM).1 = true ∧
    lookupInResult (get_mean_meteor_vals_2 ⟨10, 0⟩ ⟨12, 0⟩ tblWvhtMM).1
      ColKey.WVHT = some PyVal.nan :=
  ⟨by decide,
    (c4_amended_nan_mean_key_present.1 tblWvhtMM ⟨10, 0⟩ ⟨12, 0⟩ (by decide)
      (by decide) (by with_unfolding_all decide) (by with_unfolding_all decide)).1,
    (c4_amended_nan_mean_key_present.1 tblWvhtMM ⟨10, 0⟩ ⟨12, 0⟩ (by decide)
      (by decide) (by with_unfolding_all decide) (by with_unfolding_all decide)).2⟩

/-- `getD` within bounds is `get`. -/
theorem getD_of_lt {α : Type} (l : List α) (d : α) {n : Nat}
    (h : n < l.length) : l.getD n d = l.get ⟨n, h⟩ := by
  simp [List.getD_eq_getElem?_getD, List.getElem?_eq_getElem h,
    List.get_eq_getElem]

/-- `getD` on the value column of a series. -/
theorem getD_map_snd (s : List (ℚ × ℚ)) {k : Nat} (hk : k < s.length) :
    (s.map Prod.snd).getD k 0 = (s.getD k (0, 0)).2 := by
  have hk2 : k < (s.map Prod.snd).length := by simpa using hk
  rw [getD_of_lt _ _ hk2, getD_of_lt _ _ hk]
  simp [List.get_eq_getElem]

/-- Lower bounds propagate through `foldl max`. -/
theorem le_foldl_max {a x : ℚ} {xs : List ℚ} (h : a ≤ x) :
    a ≤ xs.foldl max x := by
  induction xs generalizing x with
  | nil => exact h
  | cons y ys ih => exact ih (le_trans h (le_max_left x y))

/-- `foldl max` lands on one of its inputs. -/
theorem foldl_max_mem (x : ℚ) (xs : List ℚ) : xs.foldl max x ∈ x :: xs := by
  induction xs generalizing x with
  | nil => simp
  | cons y ys ih =>
    simp only [List.foldl_cons]
    rcases List.mem_cons.mp (ih (max x y)) with h | h
    · rcases max_choice x y with hm | hm
      · rw [h, hm]
        exact List.mem_cons_self _ _
      · rw [h, hm]
        exact List.mem_cons_of_mem _ (List.mem_cons_self _ _)
    · exact List.mem_cons_of_mem _ (List.mem_cons_of_mem _ h)

/-- Every list element is at most `foldl max`. -/
theorem mem_le_foldl_max {a x : ℚ} {xs : List ℚ} (h : a ∈ xs) :
    a ≤ xs.foldl max x := by
  induction xs generalizing x with
  | nil => cases h
  | cons y ys ih =>
    simp only [List.foldl_cons]
    rcases List.mem_cons.mp h with rfl | h2
    · exact le_foldl_max (le_max_right x a)
    · exact ih h2

/-- `listMax` of a non-empty list is one of its elements. -/
theorem listMax_mem {l : List ℚ} (h : l ≠ []) : listMax l ∈ l := by
  cases l with
  | nil => exact absurd rfl h
  | cons x xs => exact foldl_max_mem x xs

/-- `listMax` bounds every element. -/
theorem le_listMax {a : ℚ} {l : List ℚ} (h : a ∈ l) : a ≤ listMax l := by
  cases l with
  | nil => cases h
  | cons x xs =>
    rcases List.mem_cons.mp h with rfl | h2
    · exact le_foldl_max le_rfl
    · exact mem_le_foldl_max h2

/-- Upper bounds propagate through `foldl min`. -/
theorem foldl_min_le {a x : ℚ} {xs : List ℚ} (h : x ≤ a) :
    xs.foldl min x ≤ a := by
  induction xs generalizing x with
  | nil => exact h
  | cons y ys ih => exact ih (le_trans (min_le_left x y) h)

/-- `foldl min` lands on one of its inputs. -/
theorem foldl_min_mem (x : ℚ) (xs : List ℚ) : xs.foldl min x ∈ x :: xs := by
  induction xs generalizing x with
  | nil => simp
  | cons y ys ih =>
    simp only [List.foldl_cons]
    rcases List.mem_cons.mp (ih (min x y)) with h | h
    · rcases min_choice x y with hm | hm
      · rw [h, hm]
        exact List.mem_cons_self _ _
      · rw [h, hm]
        exact List.mem_cons_of_mem _ (List.mem_cons_self _ _)
    · exact List.mem_cons_of_mem _ (List.mem_cons_of_mem _ h)

/-- `foldl min` is at most every list element. -/
theorem foldl_min_le_mem {a x : ℚ} {xs : List ℚ} (h : a ∈ xs) :
    xs.foldl min x ≤ a := by
  induction xs generalizing x with
  | nil => cases h
  | cons y ys ih =>
    simp only [List.foldl_cons]
    rcases List.mem_cons.mp h with rfl | h2
    · exact foldl_min_le (min_le_right x a)
    · exact ih h2

/-- `listMin` of a non-empty list is one of its elements. -/
theorem listMin_mem {l : List ℚ} (h : l ≠ []) : listMin l ∈ l := by
  cases l with
  | nil => exact absurd rfl h
  | cons x xs => exact foldl_min_mem x xs

/-- `listMin` is below every element. -/
theorem listMin_le {a : ℚ} {l : List ℚ} (h : a ∈ l) : listMin l ≤ a := by
  cases l with
  | nil => cases h
  | cons x xs =>
    rcases List.mem_cons.mp h with rfl | h2
    · exact foldl_min_le le_rfl
    · exact foldl_min_le_mem h2

/-- `findIdx` returns the first position satisfying the predicate. -/
theorem findIdx_eq_of_getD {l : List ℚ} {p : ℚ → Bool} {i : Nat}
    (hi : i < l.length) (hpi : p (l.getD i 0) = true)
    (hbefore : ∀ j, j < i → p (l.getD j 0) = false) :
    l.findIdx p = i := by
  induction l generalizing i with
  | nil => cases hi
  | cons x xs ih =>
    cases i with
    | zero =>
      simp only [List.getD_cons_zero] at hpi
      simp [List.findIdx_cons, hpi]
    | succ i2 =>
      have h0 : p x = false := by
        have := hbefore 0 (Nat.succ_pos i2)
        simpa using this
      simp only [List.getD_cons_succ] at hpi
      simp only [List.findIdx_cons, h0, cond_false]
      rw [ih (Nat.lt_of_succ_lt_succ hi) hpi
        (fun j hj => by simpa using hbefore (j + 1) (Nat.succ_lt_succ hj))]

/-- With a unique strict maximum at position `i`, `listMax` is that
value. -/
theorem listMax_eq_of_unique {s : List ℚ} {i : Nat} (hi : i < s.length)
    (hmax : ∀ j, j < s.length → j ≠ i → s.getD j 0 < s.getD i 0) :
    listMax s = s.getD i 0 := by
  have hne : s ≠ [] := by
    intro h
    rw [h] at hi
    cases hi
  obtain ⟨⟨j, hj⟩, hjeq⟩ := List.mem_iff_get.mp (listMax_mem hne)
  by_cases hji : j = i
  · subst hji
    rw [← hjeq, getD_of_lt _ _ hj]
  · exfalso
    have hlt : s.getD j 0 < s.getD i 0 := hmax j hj hji
    have hle : s.getD i 0 ≤ listMax s :=
      le_listMax (by rw [getD_of_lt _ _ hi]; exact List.get_mem _ _ _)
    rw [← hjeq, ← getD_of_lt _ _ hj] at hle
    exact absurd (lt_of_le_of_lt hle hlt) (lt_irrefl _)

/-- With a unique strict minimum at position `j`, `listMin` is that
value. -/
theorem listMin_eq_of_unique {s : List ℚ} {i : Nat} (hi : i < s.length)
    (hmin : ∀ j, j < s.length → j ≠ i → s.getD i 0 < s.getD j 0) :
    listMin s = s.getD i 0 := by
  have hne : s ≠ [] := by
    intro h
    rw [h] at hi
    cases hi
  obtain ⟨⟨j, hj⟩, hjeq⟩ := List.mem_iff_get.mp (listMin_mem hne)
  by_cases hji : j = i
  · subst hji
    rw [← hjeq, getD_of_lt _ _ hj]
  · exfalso
    have hlt : s.getD i 0 < s.getD j 0 := hmin j hj hji
    have hle : listMin s ≤ s.getD i 0 :=
      listMin_le (by rw [getD_of_lt _ _ hi]; exact List.get_mem _ _ _)
    rw [← hjeq, ← getD_of_lt _ _ hj] at hle
    exact absurd (lt_of_lt_of_le hlt hle) (lt_irrefl _)

/-- `idxmax` finds the unique strict maximum. -/
theorem idxOfMax_eq {s : List ℚ} {i : Nat} (hi : i < s.length)
    (hmax : ∀ j, j < s.length → j ≠ i → s.getD j 0 < s.getD i 0) :
    idxOfMax s = i := by
  have hlmax : listMax s = s.getD i 0 := listMax_eq_of_unique hi hmax
  unfold idxOfMax
  apply findIdx_eq_of_getD hi
  · show decide (s.getD i 0 = listMax s) = true
    rw [decide_eq_true_eq]
    exact hlmax.symm
  · intro j hj
    show decide (s.getD j 0 = listMax s) = false
    rw [decide_eq_false_iff_not, hlmax]
    exact ne_of_lt (hmax j (lt_trans hj hi) (Nat.ne_of_lt hj))

/-- `idxmin` finds the unique strict minimum. -/
theorem idxOfMin_eq {s : List ℚ} {i : Nat} (hi : i < s.length)
    (hmin : ∀ j, j < s.length → j ≠ i → s.getD i 0 < s.getD j 0) :
    idxOfMin s = i := by
  have hlmin : listMin s = s.getD i 0 := listMin_eq_of_unique hi hmin
  unfold idxOfMin
  apply findIdx_eq_of_getD hi
  · show decide (s.getD i 0 = listMin s) = true
    rw [decide_eq_true_eq]
    exact hlmin.symm
  · intro j hj
    show decide (s.getD j 0 = listMin s) = false
    rw [decide_eq_false_iff_not, hlmin]
    exact ne_of_gt (hmin j (lt_trans hj hi) (Nat.ne_of_lt hj))

/-- C3 (counterexample): under the claim's literal ordering "t1 after t2
after t0" (here `t0 = 0 < t2 = 5 < t1 = 10`), the maximum 3.5 sits at `t1`
and the minimum 0.4 at `t2`, so the maximum's timestamp is *after* the
minimum's and the code returns `incoming = true` — not the claimed
`incoming = false` (max/min/median are as claimed). -/
theorem c3_counterexample_literal_ordering :
    ((0:ℚ) < 5 ∧ (5:ℚ) < 10) ∧
    get_tide_sesh_data (.payload tideSeriesLiteral) =
      .ok (some { incoming := true, max_h := 7/2, min_h := 2/5,
                  median_h := 6/5 }) ∧
    (true : Bool) ≠ false := by
  refine ⟨by norm_num, by with_unfolding_all rfl, by decide⟩

/-- C3 (amended): for every non-empty fetched series with a unique strict
maximum (position `i`) and unique strict minimum (position `j`),
`get_tide_sesh_data` returns the maximum value, the minimum value and the
median of the series, with `incoming` true exactly when the timestamp of
the maximum is after the timestamp of the minimum; in particular, for the
series `[(t0,1.2),(t1,3.5),(t2,0.4)]` with timestamps in *chronological*
order (`t2` after `t1` after `t0`) the result is `incoming = false`,
`max = 3.5`, `min = 0.4`, `median = 1.2`. -/
theorem c3_amended_tide_extremes :
    (∀ (s : List (ℚ × ℚ)) (i j : Nat), i < s.length → j < s.length →
      (∀ k, k < s.length → k ≠ i → (s.getD k (0, 0)).2 < (s.getD i (0, 0)).2) →
      (∀ k, k < s.length → k ≠ j → (s.getD j (0, 0)).2 < (s.getD k (0, 0)).2) →
      get_tide_sesh_data (.payload s) =
        .ok (some { incoming := decide ((s.getD j (0, 0)).1 < (s.getD i (0, 0)).1)
                    max_h := (s.getD i (0, 0)).2
                    min_h := (s.getD j (0, 0)).2
                    median_h := listMedian (s.map Prod.snd) })) ∧
    get_tide_sesh_data (.payload tideSeriesChron) =
      .ok (some { incoming := false, max_h := 7/2, min_h := 2/5,
                  median_h := 6/5 }) := by
  constructor
  · intro s i j hi hj hmax hmin
    have hse : s.isEmpty = false := by
      cases s
      · cases hi
      · rfl
    have hlen : (s.map Prod.snd).length = s.length := List.length_map _ _
    have hmax2 : ∀ k, k < (s.map Prod.snd).length → k ≠ i →
        (s.map Prod.snd).getD k 0 < (s.map Prod.snd).getD i 0 := by
      intro k hk hki
      rw [hlen] at hk
      rw [getD_map_snd s hk, getD_map_snd s hi]
      exact hmax k hk hki
    have hmin2 : ∀ k, k < (s.map Prod.snd).length → k ≠ j →
        (s.map Prod.snd).getD j 0 < (s.map Prod.snd).getD k 0 := by
      intro k hk hkj
      rw [hlen] at hk
      rw [getD_map_snd s hk, getD_map_snd s hj]
      exact hmin k hk hkj
    have hi2 : i < (s.map Prod.snd).length := by rw [hlen]; exact hi
    have hj2 : j < (s.map Prod.snd).length := by rw [hlen]; exact hj
    have hidxmax : idxOfMax (s.map Prod.snd) = i := idxOfMax_eq hi2 hmax2
    have hidxmin : idxOfMin (s.map Prod.snd) = j := idxOfMin_eq hj2 hmin2
    have hlmax : listMax (s.map Prod.snd) = (s.getD i (0, 0)).2 := by
      rw [listMax_eq_of_unique hi2 hmax2, getD_map_snd s hi]
    have hlmin : listMin (s.map Prod.snd) = (s.getD j (0, 0)).2 := by
      rw [listMin_eq_of_unique hj2 hmin2, getD_map_snd s hj]
    simp only [get_tide_sesh_data, get_tides_noaa, hse, Bool.false_eq_true,
      if_false, tideStats, hidxmax, hidxmin, hlmax, hlmin]
  · with_unfolding_all rfl

/-- C3 (witness): the general tide-extremes theorem applied to the
chronologically ordered example series (maximum at position 1, minimum at
position 2). -/
theorem c3_amended_witness :
    ((1 : Nat) < tideSeriesChron.length ∧
      (∀ k, k < tideSeriesChron.length → k ≠ 1 →
        (tideSeriesChron.getD k (0, 0)).2 < (tideSeriesChron.getD 1 (0, 0)).2)) ∧
    get_tide_sesh_data (.payload tideSeriesChron) =
      .ok (some { incoming := decide ((tideSeriesChron.getD 2 (0, 0)).1 <
                    (tideSeriesChron.getD 1 (0, 0)).1)
                  max_h := (tideSeriesChron.getD 1 (0, 0)).2
                  min_h := (tideSeriesChron.getD 2 (0, 0)).2
                  median_h := listMedian (tideSeriesChron.map Prod.snd) }) :=
  ⟨⟨by decide, by with_unfolding_all decide⟩,
    c3_amended_tide_extremes.1 tideSeriesChron 1 2 (by decide) (by decide)
      (by with_unfolding_all decide) (by with_unfolding_all decide)⟩
